import Mathlib

/-!
Shallow embedding of `pkg/queue/instance.go` (package `queue`): a
single-consumer FIFO work queue with a blocking dequeue, cooperative
shutdown and fire-and-forget retry of failing tasks.

Modelling decisions:
* `Task` (a Go closure `func() error`) is an opaque value of a type `τ`;
  whether a given task's execution returns a non-nil error is supplied by
  an oracle `fails : τ → Bool` (true = the task returned an error).
* `time.Duration` is a `Nat`.
* The mutex/condition pair disappears in the sequential embedding: each
  critical section of the Go code becomes one atomic state transform.
  `cond.Wait` shows up as the `blocked` outcome of `get` (the consumer
  cannot make progress without a concurrent `Push` or the stop signal).
* `time.AfterFunc(delay, func() { q.Push(task) })` is fire-and-forget: the
  run loop records the scheduled `(delay, task)` pair in a `timers` list
  instead of mutating the queue; firing a timer is the separate function
  `fireTimer`, which performs the `Push`.
* `close(q.closed)` is the boolean `closedFired`; `sync.Once` is the
  boolean `closeOnceDone`.
* The source file contains an unresolved git merge conflict inside `Run`
  (markers at lines 137/161/163): the HEAD side inlines a drain-style
  dequeue loop, the incoming side calls `processNextItem`/`get`.  Both
  variants are embedded: `get`/`processNextItem`/`runFrom` follow the
  incoming side, `runLoopHEADBody` follows the HEAD side's loop body.
* `log.Debugf`/`log.Infof` calls are collected as strings in `logs` lists.
-/

namespace QueueModel

/-- Go `time.Duration`, modelled as a natural number of nanoseconds. -/
abbrev Duration := Nat

/-- The state of `queueImpl` (instance.go lines 41-50).  `cond` and its
mutex have no counterpart in the sequential embedding; `closed` (a channel
that is only ever closed) is the flag `closedFired`; `closeOnce` is the
flag `closeOnceDone`. -/
structure QueueImpl (τ : Type) where
  delay : Duration
  /-- `retryBackoff *backoff.ExponentialBackOff`: declared in the struct
  but never assigned anywhere in the file, so it is always `nil` (`none`)
  on constructed queues; no function reads it. -/
  retryBackoff : Option Duration
  tasks : List τ
  closing : Bool
  closedFired : Bool
  closeOnceDone : Bool
  id : String
deriving DecidableEq

/-- `NewQueueWithID` (instance.go lines 57-67). -/
def NewQueueWithID (τ : Type) (errorDelay : Duration) (name : String) :
    QueueImpl τ :=
  { delay := errorDelay
    retryBackoff := none
    tasks := []
    closing := false
    closedFired := false
    closeOnceDone := false
    id := name }

/-- `NewQueue` (instance.go lines 53-55): delegates to `NewQueueWithID`
with a random 10-character identifier; the randomness is modelled as the
explicit argument `randomId`. -/
def NewQueue (τ : Type) (errorDelay : Duration) (randomId : String) :
    QueueImpl τ :=
  NewQueueWithID τ errorDelay randomId

/-- `Push` (instance.go lines 69-76): under the lock, append the item to
`tasks` unless `closing` is set, then `cond.Signal()` (no state effect in
the sequential model).  There is no return value: the caller is never
told whether the item was kept. -/
def Push {τ : Type} (q : QueueImpl τ) (item : τ) : QueueImpl τ :=
  if !q.closing then { q with tasks := q.tasks ++ [item] } else q

/-- `Closed` (instance.go lines 78-80) returns the `closed` channel; the
observable fact for a listener is whether that channel has been closed. -/
def Closed {τ : Type} (q : QueueImpl τ) : Bool :=
  q.closedFired

/-- Outcome of one call to `get` (instance.go lines 84-101). -/
inductive GetResult (τ : Type) where
  /-- The wait loop `for !q.closing && len(q.tasks) == 0 { q.cond.Wait() }`
  does not terminate without concurrent activity. -/
  | blocked
  /-- `return nil, true`. -/
  | shutdown (q : QueueImpl τ)
  /-- `return task, false` with the dequeued head. -/
  | task (t : τ) (q : QueueImpl τ)
  /-- The index expression `q.tasks[0]` on an empty slice would panic. -/
  | panicked
deriving DecidableEq

/-- `get` (instance.go lines 84-101).  After the wait loop exits, if
`closing` is set it returns the shutdown indicator at once — even when
tasks remain buffered.  Otherwise it reads `q.tasks[0]` (the nil-ing out
of the slot before re-slicing only helps the garbage collector and has no
counterpart on lists) and drops the head. -/
def get {τ : Type} (q : QueueImpl τ) : GetResult τ :=
  if !q.closing && q.tasks.isEmpty then
    GetResult.blocked
  else if q.closing then
    GetResult.shutdown q
  else
    match q.tasks with
    | [] => GetResult.panicked
    | t :: rest => GetResult.task t { q with tasks := rest }

/-- The loop body of the HEAD side of the merge conflict in `Run`
(instance.go lines 138-160): same wait loop as `get`, but the exit test is
`len(q.tasks) == 0` rather than `q.closing`, so buffered tasks are drained
before the shutdown path is taken. -/
def runLoopHEADBody {τ : Type} (q : QueueImpl τ) : GetResult τ :=
  if !q.closing && q.tasks.isEmpty then
    GetResult.blocked
  else
    match q.tasks with
    | [] => GetResult.shutdown q
    | t :: rest => GetResult.task t { q with tasks := rest }

/-- Observable events of the run loop. -/
inductive RunEvent (τ : Type) where
  /-- `task()` was invoked; `failed` records whether it returned an error. -/
  | exec (t : τ) (failed : Bool)
  /-- `close(q.closed)` ran. -/
  | closed
deriving DecidableEq

/-- Result of one successful pass through `processNextItem`
(instance.go lines 103-119). -/
structure ProcResult (τ : Type) where
  q : QueueImpl τ
  events : List (RunEvent τ)
  /-- Timers armed via `time.AfterFunc(delay, func() { q.Push(task) })`,
  recorded but not yet fired. -/
  timers : List (Duration × τ)
  logs : List String
  /-- The boolean returned to the `for q.processNextItem() {}` loop. -/
  cont : Bool
deriving DecidableEq

/-- Outcome of `processNextItem`, separating the two ways the call can
fail to return normally. -/
inductive ProcOutcome (τ : Type) where
  | blocked
  | panicked
  | step (r : ProcResult τ)
deriving DecidableEq

/-- `processNextItem` (instance.go lines 103-119): dequeue via `get`;
on shutdown return `false`; otherwise run the task and, if it failed, log
and arm a retry timer that will `Push` the identical task after `q.delay`,
then return `true` without waiting for the timer. -/
def processNextItem {τ : Type} (fails : τ → Bool) (q : QueueImpl τ) :
    ProcOutcome τ :=
  match get q with
  | GetResult.blocked => ProcOutcome.blocked
  | GetResult.panicked => ProcOutcome.panicked
  | GetResult.shutdown q1 =>
      ProcOutcome.step { q := q1, events := [], timers := [], logs := [], cont := false }
  | GetResult.task t q1 =>
      if fails t then
        ProcOutcome.step
          { q := q1
            events := [RunEvent.exec t true]
            timers := [(q1.delay, t)]
            logs := ["Work item handle failed, retry after delay " ++ toString q1.delay]
            cont := true }
      else
        ProcOutcome.step
          { q := q1, events := [RunEvent.exec t false], timers := [], logs := [], cont := true }

/-- A retry timer firing: the `time.AfterFunc` callback is exactly
`q.Push(task)`. -/
def fireTimer {τ : Type} (q : QueueImpl τ) (e : Duration × τ) : QueueImpl τ :=
  Push q e.2

/-- The stop-watcher goroutine body (instance.go lines 129-135): once the
stop channel yields, under the lock it signals the condition and sets
`closing` to `true`.  Nothing in the file ever writes `false` back. -/
def stopSignalHandler {τ : Type} (q : QueueImpl τ) : QueueImpl τ :=
  { q with closing := true }

/-- The deferred `q.closeOnce.Do(func() { log.Debugf(...); close(q.closed) })`
(instance.go lines 123-128).  Returns the new state, whether the body ran,
and the log lines it emitted. -/
def closeDefer {τ : Type} (q : QueueImpl τ) : QueueImpl τ × Bool × List String :=
  if q.closeOnceDone then
    (q, false, [])
  else
    ({ q with closeOnceDone := true, closedFired := true }, true,
      ["closed queue " ++ q.id])

/-- How a fuel-bounded unfolding of the `for q.processNextItem() {}` loop
ended. -/
inductive RunStatus where
  /-- `processNextItem` returned `false`: the loop exited. -/
  | exited
  /-- The consumer is parked in `cond.Wait` and, absent concurrent
  activity, never resumes; `Run` has not returned. -/
  | blockedForever
  /-- An out-of-range index panic propagated. -/
  | panicked
  /-- Fuel ran out while the loop was still making progress. -/
  | outOfFuel
deriving DecidableEq

/-- Accumulated observation of a (partial) execution of `Run`. -/
structure RunResult (τ : Type) where
  events : List (RunEvent τ)
  timers : List (Duration × τ)
  logs : List String
  q : QueueImpl τ
  status : RunStatus
deriving DecidableEq

/-- The `for q.processNextItem() {}` loop of the incoming side of the
merge conflict (instance.go line 162), unfolded for `fuel` iterations. -/
def runFrom {τ : Type} (fails : τ → Bool) : Nat → QueueImpl τ → RunResult τ
  | 0, q => { events := [], timers := [], logs := [], q := q, status := RunStatus.outOfFuel }
  | fuel + 1, q =>
      match processNextItem fails q with
      | ProcOutcome.blocked =>
          { events := [], timers := [], logs := [], q := q, status := RunStatus.blockedForever }
      | ProcOutcome.panicked =>
          { events := [], timers := [], logs := [], q := q, status := RunStatus.panicked }
      | ProcOutcome.step r =>
          if r.cont then
            let rest := runFrom fails fuel r.q
            { events := r.events ++ rest.events
              timers := r.timers ++ rest.timers
              logs := r.logs ++ rest.logs
              q := rest.q
              status := rest.status }
          else
            { events := r.events, timers := r.timers, logs := r.logs, q := r.q,
              status := RunStatus.exited }

/-- Whether the fuel-bounded loop unfolding corresponds to `Run`'s loop
actually returning control (normally or by panic unwinding), so that the
deferred close runs. -/
def loopReturned : RunStatus → Bool
  | RunStatus.exited => true
  | RunStatus.panicked => true
  | RunStatus.blockedForever => false
  | RunStatus.outOfFuel => false

/-- `Run` (instance.go lines 121-165, incoming side of the conflict):
log the start, run the loop, and — when the loop actually returns (exit
or panic unwinding) — run the deferred once-guarded close.  While the
loop is still blocked or the fuel bound was hit, `Run` has not returned
and the defer has not run. -/
def RunModel {τ : Type} (fails : τ → Bool) (fuel : Nat) (q : QueueImpl τ) :
    RunResult τ :=
  let startLog := "started queue " ++ q.id
  let r := runFrom fails fuel q
  if loopReturned r.status then
    let c := closeDefer r.q
    { events := r.events ++ (if c.2.1 then [RunEvent.closed] else [])
      timers := r.timers
      logs := startLog :: (r.logs ++ c.2.2)
      q := c.1
      status := r.status }
  else
    { events := r.events, timers := r.timers, logs := startLog :: r.logs,
      q := r.q, status := r.status }

/-- Pushing a list of tasks in order, one producer, left to right. -/
def pushAll {τ : Type} (q : QueueImpl τ) (ts : List τ) : QueueImpl τ :=
  ts.foldl Push q

/-- Overwrite only the diagnostic identifier. -/
def setId {τ : Type} (q : QueueImpl τ) (i : String) : QueueImpl τ :=
  { q with id := i }

/-- Overwrite only the (never-read) backoff slot. -/
def setBackoff {τ : Type} (q : QueueImpl τ) (b : Option Duration) : QueueImpl τ :=
  { q with retryBackoff := b }

/-- Decides whether a `get` outcome is the out-of-range index panic. -/
def isPanic {τ : Type} : GetResult τ → Bool
  | GetResult.panicked => true
  | _ => false

/-- A concrete queue state: the stop signal has been observed (the watcher
has set `closing`) while two tasks are still buffered and none executing. -/
def qStopped2 : QueueImpl Nat :=
  { delay := 5, retryBackoff := none, tasks := [1, 2], closing := true,
    closedFired := false, closeOnceDone := false, id := "q" }

/-- The same two-task buffer before the stop signal. -/
def qOpen2 : QueueImpl Nat :=
  { qStopped2 with closing := false }

end QueueModel

namespace QueueModel

theorem get_eq {τ : Type} (q : QueueImpl τ) :
    get q = if q.closing then GetResult.shutdown q
            else
              match q.tasks with
              | [] => GetResult.blocked
              | t :: rest => GetResult.task t { q with tasks := rest } := by
  unfold get
  cases hc : q.closing <;> cases ht : q.tasks <;> simp [hc, ht]

theorem get_shutdown_state {τ : Type} {q q1 : QueueImpl τ}
    (h : get q = GetResult.shutdown q1) : q1 = q ∧ q.closing = true := by
  rw [get_eq] at h
  cases hc : q.closing <;> rw [hc] at h
  · cases ht : q.tasks <;> rw [ht] at h <;> simp at h
  · simp at h
    exact ⟨h.symm, rfl⟩

theorem get_task_state {τ : Type} {q q1 : QueueImpl τ} {t : τ}
    (h : get q = GetResult.task t q1) :
    q.closing = false ∧ q.tasks = t :: q1.tasks ∧ q1 = { q with tasks := q1.tasks } := by
  rw [get_eq] at h
  cases hc : q.closing <;> rw [hc] at h
  · cases ht : q.tasks <;> rw [ht] at h <;> simp at h
    obtain ⟨h1, h2⟩ := h
    subst h1
    subst h2
    simp [ht]
  · simp at h

theorem processNextItem_of_closing {τ : Type} (fails : τ → Bool) {q : QueueImpl τ}
    (hc : q.closing = true) :
    processNextItem fails q =
      ProcOutcome.step { q := q, events := [], timers := [], logs := [], cont := false } := by
  unfold processNextItem
  rw [get_eq, hc]
  simp

theorem processNextItem_of_empty {τ : Type} (fails : τ → Bool) {q : QueueImpl τ}
    (hc : q.closing = false) (ht : q.tasks = []) :
    processNextItem fails q = ProcOutcome.blocked := by
  unfold processNextItem
  rw [get_eq, hc, ht]
  simp

theorem processNextItem_of_task {τ : Type} (fails : τ → Bool) {q : QueueImpl τ} {t : τ}
    {rest : List τ} (hc : q.closing = false) (ht : q.tasks = t :: rest) :
    processNextItem fails q =
      ProcOutcome.step
        (if fails t then
          { q := { q with tasks := rest }
            events := [RunEvent.exec t true]
            timers := [(q.delay, t)]
            logs := ["Work item handle failed, retry after delay " ++ toString q.delay]
            cont := true }
        else
          { q := { q with tasks := rest }
            events := [RunEvent.exec t false]
            timers := []
            logs := []
            cont := true }) := by
  unfold processNextItem
  rw [get_eq, hc, ht]
  cases hf : fails t <;> simp [hf]

theorem processNextItem_step_frame {τ : Type} {fails : τ → Bool} {q : QueueImpl τ}
    {r : ProcResult τ} (h : processNextItem fails q = ProcOutcome.step r) :
    r.q.delay = q.delay ∧ r.q.retryBackoff = q.retryBackoff ∧ r.q.closing = q.closing ∧
      r.q.closedFired = q.closedFired ∧ r.q.closeOnceDone = q.closeOnceDone ∧
      r.q.id = q.id := by
  cases hc : q.closing with
  | true =>
      rw [processNextItem_of_closing fails hc] at h
      injection h with h
      subst h
      exact ⟨rfl, rfl, hc, rfl, rfl, rfl⟩
  | false =>
      cases ht : q.tasks with
      | nil => rw [processNextItem_of_empty fails hc ht] at h; cases h
      | cons t rest =>
          rw [processNextItem_of_task fails hc ht] at h
          injection h with h
          cases hf : fails t with
          | true =>
              rw [if_pos hf] at h
              subst h
              exact ⟨rfl, rfl, hc, rfl, rfl, rfl⟩
          | false =>
              rw [if_neg (by rw [hf]; exact Bool.false_ne_true)] at h
              subst h
              exact ⟨rfl, rfl, hc, rfl, rfl, rfl⟩

theorem processNextItem_stop_closing {τ : Type} {fails : τ → Bool} {q : QueueImpl τ}
    {r : ProcResult τ} (h : processNextItem fails q = ProcOutcome.step r)
    (hcont : r.cont = false) : q.closing = true := by
  cases hc : q.closing with
  | true => rfl
  | false =>
      cases ht : q.tasks with
      | nil => rw [processNextItem_of_empty fails hc ht] at h; cases h
      | cons t rest =>
          rw [processNextItem_of_task fails hc ht] at h
          injection h with h
          cases hf : fails t with
          | true =>
              rw [if_pos hf] at h
              subst h
              simp at hcont
          | false =>
              rw [if_neg (by rw [hf]; exact Bool.false_ne_true)] at h
              subst h
              simp at hcont

theorem runFrom_frame {τ : Type} (fails : τ → Bool) :
    ∀ (fuel : Nat) (q : QueueImpl τ),
      (runFrom fails fuel q).q.delay = q.delay ∧
      (runFrom fails fuel q).q.retryBackoff = q.retryBackoff ∧
      (runFrom fails fuel q).q.closing = q.closing ∧
      (runFrom fails fuel q).q.closedFired = q.closedFired ∧
      (runFrom fails fuel q).q.closeOnceDone = q.closeOnceDone ∧
      (runFrom fails fuel q).q.id = q.id := by
  intro fuel
  induction fuel with
  | zero => intro q; exact ⟨rfl, rfl, rfl, rfl, rfl, rfl⟩
  | succ n ih =>
      intro q
      rw [runFrom]
      cases hp : processNextItem fails q with
      | blocked => exact ⟨rfl, rfl, rfl, rfl, rfl, rfl⟩
      | panicked => exact ⟨rfl, rfl, rfl, rfl, rfl, rfl⟩
      | step r =>
          obtain ⟨h1, h2, h3, h4, h5, h6⟩ := processNextItem_step_frame hp
          cases hcont : r.cont with
          | true =>
              simp only [hcont, if_true]
              obtain ⟨g1, g2, g3, g4, g5, g6⟩ := ih r.q
              exact ⟨g1.trans h1, g2.trans h2, g3.trans h3, g4.trans h4,
                g5.trans h5, g6.trans h6⟩
          | false =>
              simp only [hcont, if_false]
              exact ⟨h1, h2, h3, h4, h5, h6⟩

theorem runFrom_succ_closing {τ : Type} (fails : τ → Bool) (n : Nat) {q : QueueImpl τ}
    (hc : q.closing = true) :
    runFrom fails (n + 1) q =
      { events := [], timers := [], logs := [], q := q, status := RunStatus.exited } := by
  rw [runFrom, processNextItem_of_closing fails hc]
  rfl

theorem runFrom_succ_empty {τ : Type} (fails : τ → Bool) (n : Nat) {q : QueueImpl τ}
    (hc : q.closing = false) (ht : q.tasks = []) :
    runFrom fails (n + 1) q =
      { events := [], timers := [], logs := [], q := q,
        status := RunStatus.blockedForever } := by
  rw [runFrom, processNextItem_of_empty fails hc ht]

theorem runFrom_succ_task_fail {τ : Type} (fails : τ → Bool) (n : Nat) {q : QueueImpl τ}
    {t : τ} {rest : List τ} (hc : q.closing = false) (ht : q.tasks = t :: rest)
    (hf : fails t = true) :
    runFrom fails (n + 1) q =
      { events :=
          RunEvent.exec t true :: (runFrom fails n { q with tasks := rest }).events
        timers := (q.delay, t) :: (runFrom fails n { q with tasks := rest }).timers
        logs := ("Work item handle failed, retry after delay " ++ toString q.delay) ::
          (runFrom fails n { q with tasks := rest }).logs
        q := (runFrom fails n { q with tasks := rest }).q
        status := (runFrom fails n { q with tasks := rest }).status } := by
  rw [runFrom, processNextItem_of_task fails hc ht, if_pos hf]
  rfl

theorem runFrom_succ_task_ok {τ : Type} (fails : τ → Bool) (n : Nat) {q : QueueImpl τ}
    {t : τ} {rest : List τ} (hc : q.closing = false) (ht : q.tasks = t :: rest)
    (hf : fails t = false) :
    runFrom fails (n + 1) q =
      { events :=
          RunEvent.exec t false :: (runFrom fails n { q with tasks := rest }).events
        timers := (runFrom fails n { q with tasks := rest }).timers
        logs := (runFrom fails n { q with tasks := rest }).logs
        q := (runFrom fails n { q with tasks := rest }).q
        status := (runFrom fails n { q with tasks := rest }).status } := by
  rw [runFrom, processNextItem_of_task fails hc ht,
    if_neg (by rw [hf]; exact Bool.false_ne_true)]
  rfl

theorem runFrom_no_closed {τ : Type} (fails : τ → Bool) :
    ∀ (fuel : Nat) (q : QueueImpl τ), RunEvent.closed ∉ (runFrom fails fuel q).events := by
  intro fuel
  induction fuel with
  | zero => intro q; simp [runFrom]
  | succ n ih =>
      intro q
      cases hc : q.closing with
      | true => rw [runFrom_succ_closing fails n hc]; simp
      | false =>
          cases ht : q.tasks with
          | nil => rw [runFrom_succ_empty fails n hc ht]; simp
          | cons t rest =>
              cases hf : fails t with
              | true =>
                  rw [runFrom_succ_task_fail fails n hc ht hf]
                  simp only [List.mem_cons]
                  intro h
                  rcases h with h | h
                  · cases h
                  · exact ih _ h
              | false =>
                  rw [runFrom_succ_task_ok fails n hc ht hf]
                  simp only [List.mem_cons]
                  intro h
                  rcases h with h | h
                  · cases h
                  · exact ih _ h

theorem runFrom_exited_closing {τ : Type} (fails : τ → Bool) :
    ∀ (fuel : Nat) (q : QueueImpl τ),
      (runFrom fails fuel q).status = RunStatus.exited → q.closing = true := by
  intro fuel
  induction fuel with
  | zero => intro q h; simp [runFrom] at h
  | succ n ih =>
      intro q h
      cases hc : q.closing with
      | true => rfl
      | false =>
          cases ht : q.tasks with
          | nil =>
              rw [runFrom_succ_empty fails n hc ht] at h
              cases h
          | cons t rest =>
              cases hf : fails t with
              | true =>
                  rw [runFrom_succ_task_fail fails n hc ht hf] at h
                  have hthis := ih { q with tasks := rest } h
                  simp only at hthis
                  rw [hc] at hthis
                  exact hthis
              | false =>
                  rw [runFrom_succ_task_ok fails n hc ht hf] at h
                  have hthis := ih { q with tasks := rest } h
                  simp only at hthis
                  rw [hc] at hthis
                  exact hthis

theorem runFrom_exec_mem {τ : Type} (fails : τ → Bool) :
    ∀ (fuel : Nat) (q : QueueImpl τ) (a : τ) (b : Bool),
      RunEvent.exec a b ∈ (runFrom fails fuel q).events → a ∈ q.tasks := by
  intro fuel
  induction fuel with
  | zero => intro q a b h; simp [runFrom] at h
  | succ n ih =>
      intro q a b h
      cases hc : q.closing with
      | true => rw [runFrom_succ_closing fails n hc] at h; simp at h
      | false =>
          cases ht : q.tasks with
          | nil => rw [runFrom_succ_empty fails n hc ht] at h; simp at h
          | cons t rest =>
              cases hf : fails t with
              | true =>
                  rw [runFrom_succ_task_fail fails n hc ht hf] at h
                  simp only [List.mem_cons] at h
                  rcases h with h | h
                  · injection h with h1 h2
                    subst h1
                    exact List.mem_cons_self a rest
                  · exact List.mem_cons_of_mem t (ih _ a b h)
              | false =>
                  rw [runFrom_succ_task_ok fails n hc ht hf] at h
                  simp only [List.mem_cons] at h
                  rcases h with h | h
                  · injection h with h1 h2
                    subst h1
                    exact List.mem_cons_self a rest
                  · exact List.mem_cons_of_mem t (ih _ a b h)

theorem runFrom_timers_delay {τ : Type} (fails : τ → Bool) :
    ∀ (fuel : Nat) (q : QueueImpl τ) (e : Duration × τ),
      e ∈ (runFrom fails fuel q).timers → e.1 = q.delay := by
  intro fuel
  induction fuel with
  | zero => intro q e h; simp [runFrom] at h
  | succ n ih =>
      intro q e h
      cases hc : q.closing with
      | true => rw [runFrom_succ_closing fails n hc] at h; simp at h
      | false =>
          cases ht : q.tasks with
          | nil => rw [runFrom_succ_empty fails n hc ht] at h; simp at h
          | cons t rest =>
              cases hf : fails t with
              | true =>
                  rw [runFrom_succ_task_fail fails n hc ht hf] at h
                  simp only [List.mem_cons] at h
                  rcases h with h | h
                  · rw [h]
                  · exact ih { q with tasks := rest } e h
              | false =>
                  rw [runFrom_succ_task_ok fails n hc ht hf] at h
                  exact ih { q with tasks := rest } e h

theorem runFrom_events_of_open {τ : Type} (fails : τ → Bool) :
    ∀ (fuel : Nat) (q : QueueImpl τ), q.closing = false → q.tasks.length < fuel →
      (runFrom fails fuel q).events =
          q.tasks.map (fun t => RunEvent.exec t (fails t)) ∧
        (runFrom fails fuel q).status = RunStatus.blockedForever ∧
        (runFrom fails fuel q).q.tasks = [] := by
  intro fuel
  induction fuel with
  | zero => intro q hc hlen; exact absurd hlen (Nat.not_lt_zero _)
  | succ n ih =>
      intro q hc hlen
      cases ht : q.tasks with
      | nil =>
          rw [runFrom_succ_empty fails n hc ht]
          exact ⟨rfl, rfl, ht⟩
      | cons t rest =>
          have hrest : rest.length < n := by
            rw [ht] at hlen
            exact Nat.lt_of_succ_lt_succ hlen
          obtain ⟨e1, e2, e3⟩ := ih { q with tasks := rest } hc hrest
          cases hf : fails t with
          | true =>
              rw [runFrom_succ_task_fail fails n hc ht hf]
              refine ⟨?_, e2, e3⟩
              simp [e1, hf]
          | false =>
              rw [runFrom_succ_task_ok fails n hc ht hf]
              refine ⟨?_, e2, e3⟩
              simp [e1, hf]

theorem pushAll_open {τ : Type} :
    ∀ (ts : List τ) (q : QueueImpl τ), q.closing = false →
      pushAll q ts = { q with tasks := q.tasks ++ ts } := by
  intro ts
  induction ts with
  | nil =>
      intro q hc
      show q = _
      simp
  | cons t ts ih =>
      intro q hc
      show pushAll (Push q t) ts = _
      have hp : Push q t = { q with tasks := q.tasks ++ [t] } := by
        unfold Push
        rw [hc]
        rfl
      rw [hp, ih { q with tasks := q.tasks ++ [t] } hc]
      simp [List.append_assoc]

theorem runFrom_agree {τ : Type} (fails : τ → Bool) :
    ∀ (fuel : Nat) (q p : QueueImpl τ), q.delay = p.delay → q.tasks = p.tasks →
      q.closing = p.closing →
      (runFrom fails fuel q).events = (runFrom fails fuel p).events ∧
        (runFrom fails fuel q).timers = (runFrom fails fuel p).timers ∧
        (runFrom fails fuel q).logs = (runFrom fails fuel p).logs ∧
        (runFrom fails fuel q).status = (runFrom fails fuel p).status ∧
        (runFrom fails fuel q).q.tasks = (runFrom fails fuel p).q.tasks := by
  intro fuel
  induction fuel with
  | zero => intro q p hd ht hc; exact ⟨rfl, rfl, rfl, rfl, ht⟩
  | succ n ih =>
      intro q p hd ht hc
      cases hcp : p.closing with
      | true =>
          have hcq : q.closing = true := hc.trans hcp
          rw [runFrom_succ_closing fails n hcq, runFrom_succ_closing fails n hcp]
          exact ⟨rfl, rfl, rfl, rfl, ht⟩
      | false =>
          have hcq : q.closing = false := hc.trans hcp
          cases htp : p.tasks with
          | nil =>
              have htq : q.tasks = [] := ht.trans htp
              rw [runFrom_succ_empty fails n hcq htq, runFrom_succ_empty fails n hcp htp]
              exact ⟨rfl, rfl, rfl, rfl, ht⟩
          | cons t rest =>
              have htq : q.tasks = t :: rest := ht.trans htp
              obtain ⟨g1, g2, g3, g4, g5⟩ :=
                ih { q with tasks := rest } { p with tasks := rest } hd rfl hc
              cases hf : fails t with
              | true =>
                  rw [runFrom_succ_task_fail fails n hcq htq hf,
                    runFrom_succ_task_fail fails n hcp htp hf]
                  exact ⟨by rw [g1], by rw [g2, hd], by rw [g3, hd], g4, g5⟩
              | false =>
                  rw [runFrom_succ_task_ok fails n hcq htq hf,
                    runFrom_succ_task_ok fails n hcp htp hf]
                  exact ⟨by rw [g1], g2, g3, g4, g5⟩

theorem RunModel_of_exited {τ : Type} (fails : τ → Bool) (fuel : Nat) (q : QueueImpl τ)
    (hx : (runFrom fails fuel q).status = RunStatus.exited) :
    RunModel fails fuel q =
      { events := (runFrom fails fuel q).events ++
          (if (closeDefer (runFrom fails fuel q).q).2.1 then [RunEvent.closed] else [])
        timers := (runFrom fails fuel q).timers
        logs := ("started queue " ++ q.id) ::
          ((runFrom fails fuel q).logs ++ (closeDefer (runFrom fails fuel q).q).2.2)
        q := (closeDefer (runFrom fails fuel q).q).1
        status := RunStatus.exited } := by
  simp only [RunModel]
  rw [hx]
  simp [loopReturned]

theorem RunModel_closed_queue {τ : Type} (fails : τ → Bool) (p : QueueImpl τ)
    (hp : p.closing = true) (hd : p.closeOnceDone = true) :
    ∀ (fuel2 : Nat), (RunModel fails fuel2 p).events = [] := by
  intro fuel2
  cases fuel2 with
  | zero => rfl
  | succ n =>
      simp only [RunModel]
      rw [runFrom_succ_closing fails n hp]
      simp [loopReturned, closeDefer, hd]

theorem RunModel_agree {τ : Type} (fails : τ → Bool) (fuel : Nat) (q p : QueueImpl τ)
    (hd : q.delay = p.delay) (ht : q.tasks = p.tasks) (hc : q.closing = p.closing)
    (ho : q.closeOnceDone = p.closeOnceDone) (hf : q.closedFired = p.closedFired) :
    (RunModel fails fuel q).events = (RunModel fails fuel p).events ∧
      (RunModel fails fuel q).timers = (RunModel fails fuel p).timers ∧
      (RunModel fails fuel q).status = (RunModel fails fuel p).status ∧
      (RunModel fails fuel q).q.closedFired = (RunModel fails fuel p).q.closedFired := by
  obtain ⟨a1, a2, a3, a4, a5⟩ := runFrom_agree fails fuel q p hd ht hc
  have hoq : (runFrom fails fuel q).q.closeOnceDone =
      (runFrom fails fuel p).q.closeOnceDone := by
    rw [(runFrom_frame fails fuel q).2.2.2.2.1, (runFrom_frame fails fuel p).2.2.2.2.1, ho]
  have hfq : (runFrom fails fuel q).q.closedFired =
      (runFrom fails fuel p).q.closedFired := by
    rw [(runFrom_frame fails fuel q).2.2.2.1, (runFrom_frame fails fuel p).2.2.2.1, hf]
  simp only [RunModel]
  rw [a4]
  cases hlr : loopReturned (runFrom fails fuel p).status with
  | false =>
      rw [if_neg Bool.false_ne_true, if_neg Bool.false_ne_true]
      exact ⟨a1, a2, rfl, hfq⟩
  | true =>
      rw [if_pos rfl, if_pos rfl]
      cases hcase : (runFrom fails fuel p).q.closeOnceDone with
      | true =>
          have hq2 : (runFrom fails fuel q).q.closeOnceDone = true := hoq.trans hcase
          simp [closeDefer, hcase, hq2, a1, a2, hfq]
      | false =>
          have hq2 : (runFrom fails fuel q).q.closeOnceDone = false := hoq.trans hcase
          simp [closeDefer, hcase, hq2, a1, a2]

/-- C1: drain-before-stop fails on the code.  At `qStopped2` (the stop
signal observed while two tasks are buffered and none executing) `get`
returns the shutdown indicator although `pending` is non-empty, and the
`processNextItem`-based run loop exits and fires the close notification
without executing either buffered task; the HEAD-side loop body of the
unresolved merge conflict at the same state drains (it dequeues task 1),
as the claim demands. -/
theorem get_shutdown_with_buffered_tasks :
    get qStopped2 = GetResult.shutdown qStopped2 ∧
      qStopped2.tasks = [1, 2] ∧
      (RunModel (fun _ => false) 3 qStopped2).events = [RunEvent.closed] ∧
      (RunModel (fun _ => false) 3 qStopped2).q.tasks = [1, 2] ∧
      runLoopHEADBody qStopped2 = GetResult.task 1 { qStopped2 with tasks := [2] } := by
  decide

/-- C2: pushing after shutdown is a silent no-op: with `closing` set,
`Push` leaves the whole state (in particular `pending`) unchanged and
returns nothing to the caller, and the run loop behaves exactly as if the
push had not happened; with `closing` unset, `Push` appends the task at
the tail of `pending`.  Executed tasks always come from `pending`, so a
task dropped by a post-shutdown push is never executed. -/
theorem push_after_shutdown_noop {τ : Type} (q : QueueImpl τ) (t : τ) :
    (q.closing = true →
      Push q t = q ∧
        ∀ (fails : τ → Bool) (fuel : Nat),
          runFrom fails fuel (Push q t) = runFrom fails fuel q) ∧
      (q.closing = false → Push q t = { q with tasks := q.tasks ++ [t] }) ∧
      (∀ (fails : τ → Bool) (fuel : Nat) (a : τ) (b : Bool),
        RunEvent.exec a b ∈ (runFrom fails fuel q).events → a ∈ q.tasks) := by
  refine ⟨?_, ?_, ?_⟩
  · intro hc
    have hp : Push q t = q := by
      unfold Push
      rw [hc]
      rfl
    exact ⟨hp, fun fails fuel => by rw [hp]⟩
  · intro hc
    unfold Push
    rw [hc]
    rfl
  · intro fails fuel a b h
    exact runFrom_exec_mem fails fuel q a b h

/-- Witness for the push-after-shutdown theorem: a closed queue drops the
pushed task without any state change, an open queue appends it. -/
theorem push_after_shutdown_noop_witness :
    (Push qStopped2 7 = qStopped2 ∧
        runFrom (fun _ => false) 3 (Push qStopped2 7) =
          runFrom (fun _ => false) 3 qStopped2) ∧
      Push qOpen2 7 = { qOpen2 with tasks := qOpen2.tasks ++ [7] } :=
  ⟨⟨((push_after_shutdown_noop qStopped2 7).1 rfl).1,
      ((push_after_shutdown_noop qStopped2 7).1 rfl).2 (fun _ => false) 3⟩,
    (push_after_shutdown_noop qOpen2 7).2.1 rfl⟩

/-- C3: FIFO order: pushing a list of tasks on a fresh queue buffers them
in push order, the dequeue removes and returns the head of `pending`, and
running the loop executes the tasks exactly in push order. -/
theorem fifo_order {τ : Type} (d : Duration) (name : String) (ts : List τ)
    (fails : τ → Bool) :
    (pushAll (NewQueueWithID τ d name) ts).tasks = ts ∧
      (∀ (q : QueueImpl τ) (t : τ) (rest : List τ), q.closing = false →
        q.tasks = t :: rest → get q = GetResult.task t { q with tasks := rest }) ∧
      (runFrom fails (ts.length + 1) (pushAll (NewQueueWithID τ d name) ts)).events =
        ts.map (fun t => RunEvent.exec t (fails t)) := by
  have hq0 : pushAll (NewQueueWithID τ d name) ts =
      { NewQueueWithID τ d name with tasks := ts } := by
    rw [pushAll_open ts (NewQueueWithID τ d name) rfl]
    rfl
  refine ⟨?_, ?_, ?_⟩
  · rw [hq0]
  · intro q t rest hc ht
    rw [get_eq, hc, ht]
    rfl
  · rw [hq0]
    exact (runFrom_events_of_open fails (ts.length + 1)
      { NewQueueWithID τ d name with tasks := ts } rfl (Nat.lt_succ_self _)).1

/-- Witness for the FIFO theorem: three tasks pushed in order execute in
that order (the middle one failing), and the dequeue at `qOpen2` returns
the head. -/
theorem fifo_order_witness :
    (runFrom (fun t => t == 11) 4 (pushAll (NewQueueWithID Nat 5 "w") [10, 11, 12])).events =
        [RunEvent.exec 10 false, RunEvent.exec 11 true, RunEvent.exec 12 false] ∧
      get qOpen2 = GetResult.task 1 { qOpen2 with tasks := [2] } := by
  constructor
  · exact ((fifo_order 5 "w" [10, 11, 12] (fun t => t == 11)).2.2).trans (by rfl)
  · exact (fifo_order 5 "w" ([] : List Nat) (fun _ => false)).2.1 qOpen2 1 [2] rfl rfl

/-- C4: retry on failure: when the dequeued head task fails, one
asynchronous timer is armed that will re-`Push` the identical task value
after the queue's configured delay, the step still reports `cont = true`
(the loop proceeds to the next buffered task without waiting on the
timer); when the task succeeds, no timer is armed and the task is never
re-pushed.  Firing the timer is exactly `Push` of that task. -/
theorem retry_on_failure {τ : Type} (fails : τ → Bool) (q : QueueImpl τ) (t : τ)
    (rest : List τ) (hc : q.closing = false) (ht : q.tasks = t :: rest) :
    processNextItem fails q =
      ProcOutcome.step
        { q := { q with tasks := rest }
          events := [RunEvent.exec t (fails t)]
          timers := if fails t then [(q.delay, t)] else []
          logs := if fails t then
              ["Work item handle failed, retry after delay " ++ toString q.delay]
            else []
          cont := true } ∧
      (∀ p : QueueImpl τ, fireTimer p (q.delay, t) = Push p t) := by
  refine ⟨?_, fun p => rfl⟩
  rw [processNextItem_of_task fails hc ht]
  cases hf : fails t <;> simp [hf]

/-- Witness for the retry theorem: at `qOpen2` with a failing head task,
the step arms exactly one timer carrying the same task and the configured
delay 5, and continues. -/
theorem retry_on_failure_witness :
    processNextItem (fun t => t == 1) qOpen2 =
      ProcOutcome.step
        { q := { qOpen2 with tasks := [2] }
          events := [RunEvent.exec 1 true]
          timers := [(5, 1)]
          logs := ["Work item handle failed, retry after delay 5"]
          cont := true } ∧
      fireTimer qOpen2 (5, 1) = Push qOpen2 1 := by
  have h := retry_on_failure (fun t => t == 1) qOpen2 1 [2] rfl rfl
  exact ⟨h.1.trans (by decide), h.2 qOpen2⟩

/-- C5: single close notification: when the run loop exits, the close
notification appears exactly once, strictly after all task executions (it
is the final event and never occurs among the loop events), the `closed`
channel is closed, and any further teardown attempt is an idempotent
no-op: the once-guard fires nothing again and a repeated `Run` on the
terminated queue produces no further events. -/
theorem closed_fires_once {τ : Type} (fails : τ → Bool) (fuel : Nat) (q : QueueImpl τ)
    (h0 : q.closeOnceDone = false)
    (hx : (runFrom fails fuel q).status = RunStatus.exited) :
    (∃ evs, (RunModel fails fuel q).events = evs ++ [RunEvent.closed] ∧
        RunEvent.closed ∉ evs) ∧
      (RunModel fails fuel q).q.closedFired = true ∧
      closeDefer (RunModel fails fuel q).q = ((RunModel fails fuel q).q, false, []) ∧
      (∀ fuel2, (RunModel fails fuel2 (RunModel fails fuel q).q).events = []) := by
  have hrm := RunModel_of_exited fails fuel q hx
  have hdone : (runFrom fails fuel q).q.closeOnceDone = false :=
    ((runFrom_frame fails fuel q).2.2.2.2.1).trans h0
  have hcd : closeDefer (runFrom fails fuel q).q =
      ({ (runFrom fails fuel q).q with closeOnceDone := true, closedFired := true }, true,
        ["closed queue " ++ (runFrom fails fuel q).q.id]) := by
    unfold closeDefer
    rw [hdone]
    rfl
  have hclosing : q.closing = true := runFrom_exited_closing fails fuel q hx
  have hfin : (RunModel fails fuel q).q =
      { (runFrom fails fuel q).q with closeOnceDone := true, closedFired := true } := by
    rw [hrm, hcd]
  refine ⟨?_, ?_, ?_, ?_⟩
  · refine ⟨(runFrom fails fuel q).events, ?_, runFrom_no_closed fails fuel q⟩
    rw [hrm, hcd]
    rfl
  · rw [hfin]
  · rw [hfin]
    unfold closeDefer
    rfl
  · intro fuel2
    apply RunModel_closed_queue fails _ ?_ ?_ fuel2
    · rw [hfin]
      exact ((runFrom_frame fails fuel q).2.2.1).trans hclosing
    · rw [hfin]

/-- Witness for the single-close theorem: a stopped empty queue closes
and stays closed. -/
theorem closed_fires_once_witness :
    (RunModel (fun _ => false) 1 { qStopped2 with tasks := ([] : List Nat) }).q.closedFired =
      true :=
  (closed_fires_once (fun _ => false) 1 { qStopped2 with tasks := [] } rfl
    (by decide)).2.1

/-- C6: the `closing` flag starts false at construction, is set to true by
the stop watcher, and no operation of the queue — `Push`, either branch of
`get`, the once-guarded close, the run loop or full `Run` — ever modifies
it. -/
theorem closing_monotonic {τ : Type} (d : Duration) (name : String) (q : QueueImpl τ)
    (t : τ) (fails : τ → Bool) (fuel : Nat) :
    (NewQueueWithID τ d name).closing = false ∧
      (stopSignalHandler q).closing = true ∧
      (Push q t).closing = q.closing ∧
      (∀ q1, get q = GetResult.shutdown q1 → q1.closing = q.closing) ∧
      (∀ a q1, get q = GetResult.task a q1 → q1.closing = q.closing) ∧
      (closeDefer q).1.closing = q.closing ∧
      (runFrom fails fuel q).q.closing = q.closing ∧
      (RunModel fails fuel q).q.closing = q.closing := by
  refine ⟨rfl, rfl, ?_, ?_, ?_, ?_, (runFrom_frame fails fuel q).2.2.1, ?_⟩
  · unfold Push
    split <;> rfl
  · intro q1 h
    rw [(get_shutdown_state h).1]
  · intro a q1 h
    rw [(get_task_state h).2.2]
  · unfold closeDefer
    split <;> rfl
  · have h1 : (closeDefer (runFrom fails fuel q).q).1.closing =
        (runFrom fails fuel q).q.closing := by
      unfold closeDefer
      split <;> rfl
    simp only [RunModel]
    split
    · exact h1.trans ((runFrom_frame fails fuel q).2.2.1)
    · exact (runFrom_frame fails fuel q).2.2.1

/-- Witness for the monotonic-closing theorem at both `get` branches. -/
theorem closing_monotonic_witness :
    qStopped2.closing = qStopped2.closing ∧
      ({ qOpen2 with tasks := [2] } : QueueImpl Nat).closing = qOpen2.closing :=
  ⟨(closing_monotonic 5 "w" qStopped2 7 (fun _ => false) 1).2.2.2.1 qStopped2 (by decide),
    (closing_monotonic 5 "w" qOpen2 7 (fun _ => false) 1).2.2.2.2.1 1
      { qOpen2 with tasks := [2] } (by decide)⟩

/-- C7: fixed retry delay: the constructor stores the given delay and
leaves the backoff slot `nil`; the run loop never changes the delay; every
retry timer ever armed carries exactly the queue's constructed delay; and
overwriting the (never-read) backoff slot changes no event, no timer and
no loop status. -/
theorem retry_delay_fixed {τ : Type} (d : Duration) (name : String) (q : QueueImpl τ)
    (b : Option Duration) (fails : τ → Bool) (fuel : Nat) :
    (NewQueueWithID τ d name).delay = d ∧
      (NewQueueWithID τ d name).retryBackoff = none ∧
      (runFrom fails fuel q).q.delay = q.delay ∧
      (∀ e, e ∈ (runFrom fails fuel q).timers → e.1 = q.delay) ∧
      (runFrom fails fuel (setBackoff q b)).events = (runFrom fails fuel q).events ∧
      (runFrom fails fuel (setBackoff q b)).timers = (runFrom fails fuel q).timers ∧
      (runFrom fails fuel (setBackoff q b)).status = (runFrom fails fuel q).status := by
  obtain ⟨a1, a2, a3, a4, a5⟩ := runFrom_agree fails fuel (setBackoff q b) q rfl rfl rfl
  exact ⟨rfl, rfl, (runFrom_frame fails fuel q).1,
    fun e he => runFrom_timers_delay fails fuel q e he, a1, a2, a4⟩

/-- Witness for the fixed-delay theorem: the single timer armed on the
concrete run carries delay 5, the constructed delay of `qOpen2`. -/
theorem retry_delay_fixed_witness :
    ((5 : Nat), (1 : Nat)).1 = qOpen2.delay :=
  (retry_delay_fixed 5 "w" qOpen2 none (fun t => t == 1) 3).2.2.2.1 (5, 1) (by decide)

/-- C8: identifier noninterference: two queues constructed with the same
delay and different ids differ only in the id field, and overwriting the
id changes nothing observable about `Push`, `get`, `Closed`, the run loop
(events, timers, failure logs, status, remaining tasks) or full `Run`
(events, timers, status, whether the closed channel fired); the id can
only show up in the diagnostic start/close log lines. -/
theorem id_noninterference {τ : Type} (q : QueueImpl τ) (i : String) (t : τ)
    (fails : τ → Bool) (fuel : Nat) (d : Duration) (n1 n2 : String) :
    NewQueueWithID τ d n1 = setId (NewQueueWithID τ d n2) n1 ∧
      Push (setId q i) t = setId (Push q t) i ∧
      Closed (setId q i) = Closed q ∧
      (∀ a q1, get q = GetResult.task a q1 →
        get (setId q i) = GetResult.task a (setId q1 i)) ∧
      (∀ q1, get q = GetResult.shutdown q1 →
        get (setId q i) = GetResult.shutdown (setId q1 i)) ∧
      (runFrom fails fuel (setId q i)).events = (runFrom fails fuel q).events ∧
      (runFrom fails fuel (setId q i)).timers = (runFrom fails fuel q).timers ∧
      (runFrom fails fuel (setId q i)).logs = (runFrom fails fuel q).logs ∧
      (runFrom fails fuel (setId q i)).status = (runFrom fails fuel q).status ∧
      (runFrom fails fuel (setId q i)).q.tasks = (runFrom fails fuel q).q.tasks ∧
      (RunModel fails fuel (setId q i)).events = (RunModel fails fuel q).events ∧
      (RunModel fails fuel (setId q i)).timers = (RunModel fails fuel q).timers ∧
      (RunModel fails fuel (setId q i)).status = (RunModel fails fuel q).status ∧
      (RunModel fails fuel (setId q i)).q.closedFired =
        (RunModel fails fuel q).q.closedFired := by
  obtain ⟨a1, a2, a3, a4, a5⟩ := runFrom_agree fails fuel (setId q i) q rfl rfl rfl
  obtain ⟨m1, m2, m3, m4⟩ := RunModel_agree fails fuel (setId q i) q rfl rfl rfl rfl rfl
  refine ⟨rfl, ?_, rfl, ?_, ?_, a1, a2, a3, a4, a5, m1, m2, m3, m4⟩
  · cases hcc : q.closing with
    | true =>
        unfold Push setId
        simp [hcc]
    | false =>
        unfold Push setId
        simp [hcc]
  · intro a q1 h
    obtain ⟨hc, ht, hq⟩ := get_task_state h
    have hstep : get (setId q i) = GetResult.task a { setId q i with tasks := q1.tasks } := by
      rw [get_eq]
      dsimp only [setId]
      rw [hc, ht]
      rfl
    exact hstep.trans (congrArg (fun p => GetResult.task a (setId p i)) hq.symm)
  · intro q1 h
    obtain ⟨hq, hc⟩ := get_shutdown_state h
    subst hq
    rw [get_eq]
    dsimp only [setId]
    rw [hc]
    rfl

/-- Witness for the id-noninterference theorem: at `qOpen2` with the id
overwritten, `get` still dequeues the same head into the same state
modulo id. -/
theorem id_noninterference_witness :
    get (setId qOpen2 "other") =
      GetResult.task 1 (setId { qOpen2 with tasks := [2] } "other") :=
  (id_noninterference qOpen2 "other" 7 (fun _ => false) 1 5 "a" "b").2.2.2.1 1
    { qOpen2 with tasks := [2] } (by decide)

/-- C9: the head access in the blocking dequeue is always in bounds: the
wait loop only exits when `closing` is set or `tasks` is non-empty, so on
no queue state does `get` reach the out-of-range index branch. -/
theorem get_head_always_in_bounds {τ : Type} (q : QueueImpl τ) :
    isPanic (get q) = false := by
  rw [get_eq]
  cases hc : q.closing with
  | true => rfl
  | false =>
      cases ht : q.tasks with
      | nil => rfl
      | cons t rest => rfl

/-- C10: frame of `get`: the shutdown return leaves the entire queue state
unchanged (buffered tasks neither removed nor cleared, `closing` not
modified), and a successful dequeue changes nothing but removing the head
of `pending`, preserving the order of the remaining tasks and every other
field. -/
theorem get_shutdown_frame {τ : Type} (q : QueueImpl τ) :
    (∀ q1, get q = GetResult.shutdown q1 → q1 = q) ∧
      (∀ t q1, get q = GetResult.task t q1 →
        q.tasks = t :: q1.tasks ∧ q1 = { q with tasks := q1.tasks }) := by
  constructor
  · intro q1 h
    exact (get_shutdown_state h).1
  · intro t q1 h
    exact ⟨(get_task_state h).2.1, (get_task_state h).2.2⟩

/-- Witness for the frame theorem: the shutdown case at `qStopped2` keeps
the state intact and the dequeue case at `qOpen2` removes exactly the
head. -/
theorem get_shutdown_frame_witness :
    qStopped2 = qStopped2 ∧
      (qOpen2.tasks = 1 :: ({ qOpen2 with tasks := [2] } : QueueImpl Nat).tasks ∧
        ({ qOpen2 with tasks := [2] } : QueueImpl Nat) =
          { qOpen2 with tasks := ({ qOpen2 with tasks := [2] } : QueueImpl Nat).tasks }) :=
  ⟨(get_shutdown_frame qStopped2).1 qStopped2 (by decide),
    (get_shutdown_frame qOpen2).2 1 { qOpen2 with tasks := [2] } (by decide)⟩

end QueueModel
